import Mathlib

/-!
Verification of the presubmit filter combinators and the partitioner of
`prow/pjutil/filter.go`.

The job definition (`config.Presubmit`) and the changed-files provider are
external collaborators of the file under study: they are embedded as opaque
data (a record of the three methods the filter code calls, and an opaque
function type).  The four operations of the file itself — `CommandFilter`,
`TestAllFilter`, `AggregateFilter` and `FilterPresubmits` — are translated
directly from the Go source.
-/

namespace Pjutil

/-- Modelled from the spec: the `ChangeProvider` capability is an opaque
handle used only by a job's own run-condition logic (`config.ChangedFilesProvider`
in Go is `func() ([]string, error)`); the filter code only passes it through. -/
def ChangedFilesProvider : Type := Unit → Except String (List String)

/-- Modelled from the spec: a job definition is an opaque entity exposing a
name, `TriggerMatches`, `NeedsExplicitTrigger`, and a fallible run-condition
evaluator `ShouldRun(branch, changes, forced, defaultBehavior)`.  The error
the evaluator may report is embedded as a `String` message. -/
structure Presubmit where
  name : String
  triggerMatches : String → Bool
  needsExplicitTrigger : Bool
  shouldRun : String → ChangedFilesProvider → Bool → Bool → Except String Bool

/-- `Filter` digests a presubmit config into
`(shouldRun/matches, forcedToRun, defaultBehavior)`. -/
def Filter : Type := Presubmit → Bool × Bool × Bool

/-- `CommandFilter` builds a filter for a `/test foo` comment body. -/
def CommandFilter (body : String) : Filter :=
  fun p => (p.triggerMatches body, p.triggerMatches body, true)

/-- `TestAllFilter` builds a filter for the automatic behavior of `/test all`. -/
def TestAllFilter : Filter :=
  fun p => (!p.needsExplicitTrigger, false, false)

/-- The loop body of `AggregateFilter`: evaluate the child filters in order,
returning the first triple whose first component is `true`. -/
def aggregateRun : List Filter → Presubmit → Bool × Bool × Bool
  | [], _ => (false, false, false)
  | f :: fs, presubmit =>
    let r := f presubmit
    if r.1 then r else aggregateRun fs presubmit

/-- `AggregateFilter` builds a filter that evaluates the child filters in
order and returns the first match. -/
def AggregateFilter (filters : List Filter) : Filter :=
  fun presubmit => aggregateRun filters presubmit

/-- The structured record handed to the diagnostic sink by the partitioner:
the two name lists and the three counts of the debug message. -/
structure LogFields where
  toTriggerNames : List String
  toSkipNames : List String
  totalCount : Nat
  triggerCount : Nat
  skipCount : Nat

/-- The diagnostic sink (`logger.WithFields(...).Debugf(...)`): it receives
the structured record and returns nothing. -/
def Logger : Type := LogFields → Unit

/-- The `for` loop of `FilterPresubmits`, with the four accumulator slices as
explicit arguments.  A run-condition error aborts the loop (`return nil, nil, err`
in Go), surfaced here as `Except.error`. -/
def filterPresubmitsLoop (filter : Filter) (changes : ChangedFilesProvider)
    (branch : String) (toTrigger : List Presubmit) (namesToTrigger : List String)
    (toSkip : List Presubmit) (namesToSkip : List String) :
    List Presubmit →
      Except String (List Presubmit × List String × List Presubmit × List String)
  | [] => .ok (toTrigger, namesToTrigger, toSkip, namesToSkip)
  | presubmit :: rest =>
    if (filter presubmit).1 then
      match presubmit.shouldRun branch changes (filter presubmit).2.1
          (filter presubmit).2.2 with
      | .error e => .error e
      | .ok true =>
        filterPresubmitsLoop filter changes branch (toTrigger ++ [presubmit])
          (namesToTrigger ++ [presubmit.name]) toSkip namesToSkip rest
      | .ok false =>
        filterPresubmitsLoop filter changes branch toTrigger namesToTrigger
          (toSkip ++ [presubmit]) (namesToSkip ++ [presubmit.name]) rest
    else
      filterPresubmitsLoop filter changes branch toTrigger namesToTrigger
        toSkip namesToSkip rest

/-- `FilterPresubmits` determines which presubmits should run and which should
be skipped by evaluating the user-provided filter.  Mirrors the Go signature
`([]Presubmit, []Presubmit, error)`: on success the error component is `none`;
on a run-condition error the two slices are `nil` (`[]`) and the error is
returned. -/
def FilterPresubmits (filter : Filter) (changes : ChangedFilesProvider)
    (branch : String) (presubmits : List Presubmit) (logger : Logger) :
    List Presubmit × List Presubmit × Option String :=
  match filterPresubmitsLoop filter changes branch [] [] [] [] presubmits with
  | .error e => ([], [], some e)
  | .ok (toTrigger, namesToTrigger, toSkip, namesToSkip) =>
    let fields : LogFields :=
      ⟨namesToTrigger, namesToSkip, presubmits.length, toTrigger.length, toSkip.length⟩
    let _ := logger fields
    (toTrigger, toSkip, none)

/-- A job is destined for `toTrigger`: the filter matches it and its
run-condition, fed the filter's forced and default flags, returns `Ok true`. -/
def triggersB (filter : Filter) (changes : ChangedFilesProvider)
    (branch : String) (p : Presubmit) : Bool :=
  let r := filter p
  r.1 && (match p.shouldRun branch changes r.2.1 r.2.2 with
          | .ok true => true
          | _ => false)

/-- A job is destined for `toSkip`: the filter matches it and its
run-condition, fed the filter's forced and default flags, returns `Ok false`. -/
def skipsB (filter : Filter) (changes : ChangedFilesProvider)
    (branch : String) (p : Presubmit) : Bool :=
  let r := filter p
  r.1 && (match p.shouldRun branch changes r.2.1 r.2.2 with
          | .ok false => true
          | _ => false)

/-- A concrete change provider for witnesses: reports no changed files. -/
def noChanges : ChangedFilesProvider := fun _ => .ok []

/-- A concrete diagnostic sink for witnesses. -/
def nullLogger : Logger := fun _ => ()

/-- A concrete job whose run-condition always answers `true`. -/
def jobYes : Presubmit := ⟨"yes-job", fun _ => true, false, fun _ _ _ _ => .ok true⟩

/-- A concrete job whose run-condition always answers `false`. -/
def jobNo : Presubmit := ⟨"no-job", fun _ => true, false, fun _ _ _ _ => .ok false⟩

/-- A concrete job whose run-condition always errors. -/
def jobErr : Presubmit := ⟨"err-job", fun _ => true, false, fun _ _ _ _ => .error "boom"⟩

/-- A concrete job that needs an explicit trigger, so `TestAllFilter` does not
match it. -/
def jobOptOut : Presubmit := ⟨"opt-out-job", fun _ => false, true, fun _ _ _ _ => .ok true⟩

/-- C4: the command filter returns `matches = TriggerMatches(body)`,
`forced = TriggerMatches(body)` (so `forced` is `true` whenever `matches` is),
and `defaultBehavior = true`. -/
theorem commandFilter_spec (body : String) (p : Presubmit) :
    (CommandFilter body p).1 = p.triggerMatches body ∧
      (CommandFilter body p).2.1 = p.triggerMatches body ∧
      (CommandFilter body p).2.2 = true :=
  ⟨rfl, rfl, rfl⟩

/-- C5: the test-all filter returns `matches = !NeedsExplicitTrigger()`, with
`forced = false` and `defaultBehavior = false`, for every job. -/
theorem testAllFilter_spec (p : Presubmit) :
    (TestAllFilter p).1 = !p.needsExplicitTrigger ∧
      (TestAllFilter p).2.1 = false ∧ (TestAllFilter p).2.2 = false :=
  ⟨rfl, rfl, rfl⟩

/-- C9: the command filter's `defaultBehavior` component is the constant
`true`, also when the filter does not match. -/
theorem commandFilter_defaultBehavior_const (body : String) (p : Presubmit) :
    (CommandFilter body p).2.2 = true :=
  rfl

/-- C7: the aggregate of an empty filter list returns `(false, false, false)`
for every job. -/
theorem aggregateFilter_nil (p : Presubmit) :
    AggregateFilter [] p = (false, false, false) :=
  rfl

/-- C2: the aggregate filter evaluates its children in order and returns the
first result that matches, and `(false, false, false)` when none does; in
particular for `[F1, F2]` the result is `F1 p` when `F1` matches, else `F2 p`
when `F2` matches, else `(false, false, false)`. -/
theorem aggregateFilter_first_match (f F1 F2 : Filter) (fs : List Filter)
    (p : Presubmit) :
    AggregateFilter [] p = (false, false, false) ∧
      AggregateFilter (f :: fs) p =
        (if (f p).1 then f p else AggregateFilter fs p) ∧
      AggregateFilter [F1, F2] p =
        (if (F1 p).1 then F1 p
         else if (F2 p).1 then F2 p else (false, false, false)) := by
  refine ⟨rfl, ?_, ?_⟩
  · simp only [AggregateFilter, aggregateRun]
  · simp only [AggregateFilter, aggregateRun]

/-- C10: the `matches` component of the aggregate filter is the disjunction
of the children's `matches` components. -/
theorem aggregateFilter_matches_any (fs : List Filter) (p : Presubmit) :
    (AggregateFilter fs p).1 = fs.any (fun f => (f p).1) := by
  induction fs with
  | nil => rfl
  | cons f fs ih =>
    simp only [AggregateFilter, aggregateRun, List.any_cons] at *
    by_cases h : (f p).1
    · simp [h]
    · simp only [Bool.not_eq_true] at h
      simp [h, ih]

/-- The loop characterization: an `ok` result of the partitioner loop extends
the accumulators with exactly the matched jobs, in input order, split by the
value of their run-condition. -/
theorem filterPresubmitsLoop_ok_eq (filter : Filter) (changes : ChangedFilesProvider)
    (branch : String) (l : List Presubmit) :
    ∀ t nt s ns T NT S NS,
      filterPresubmitsLoop filter changes branch t nt s ns l = .ok (T, NT, S, NS) →
      T = t ++ l.filter (triggersB filter changes branch) ∧
        S = s ++ l.filter (skipsB filter changes branch) := by
  induction l with
  | nil =>
    intro t nt s ns T NT S NS h
    simp only [filterPresubmitsLoop, Except.ok.injEq, Prod.mk.injEq] at h
    obtain ⟨rfl, -, rfl, -⟩ := h
    simp
  | cons p l ih =>
    intro t nt s ns T NT S NS h
    cases hm : (filter p).1 with
    | false =>
      simp only [filterPresubmitsLoop, hm] at h
      simp only [Bool.false_eq_true, if_false] at h
      obtain ⟨hT, hS⟩ := ih _ _ _ _ _ _ _ _ h
      have hpt : triggersB filter changes branch p = false := by
        simp [triggersB, hm]
      have hps : skipsB filter changes branch p = false := by
        simp [skipsB, hm]
      rw [List.filter_cons, List.filter_cons, hpt, hps]
      exact ⟨by rw [hT]; simp, by rw [hS]; simp⟩
    | true =>
      cases hr : p.shouldRun branch changes (filter p).2.1 (filter p).2.2 with
      | error e =>
        simp only [filterPresubmitsLoop, hm, if_true, hr] at h
        exact absurd h (by simp)
      | ok b =>
        have hpt : triggersB filter changes branch p = b := by
          cases b <;> simp [triggersB, hm, hr]
        have hps : skipsB filter changes branch p = !b := by
          cases b <;> simp [skipsB, hm, hr]
        cases b with
        | true =>
          simp only [filterPresubmitsLoop, hm, if_true, hr] at h
          obtain ⟨hT, hS⟩ := ih _ _ _ _ _ _ _ _ h
          rw [List.filter_cons, List.filter_cons, hpt, hps]
          exact ⟨by rw [hT]; simp, by rw [hS]; simp⟩
        | false =>
          simp only [filterPresubmitsLoop, hm, if_true, hr] at h
          obtain ⟨hT, hS⟩ := ih _ _ _ _ _ _ _ _ h
          rw [List.filter_cons, List.filter_cons, hpt, hps]
          exact ⟨by rw [hT]; simp, by rw [hS]; simp⟩

/-- Splitting the partitioner loop at a list append: the loop runs the first
segment and, unless it aborted, continues on the second with the accumulated
slices. -/
theorem filterPresubmitsLoop_append (filter : Filter) (changes : ChangedFilesProvider)
    (branch : String) (l1 l2 : List Presubmit) :
    ∀ t nt s ns,
      filterPresubmitsLoop filter changes branch t nt s ns (l1 ++ l2) =
        match filterPresubmitsLoop filter changes branch t nt s ns l1 with
        | .error e => .error e
        | .ok (T, NT, S, NS) => filterPresubmitsLoop filter changes branch T NT S NS l2 := by
  induction l1 with
  | nil => intro t nt s ns; simp [filterPresubmitsLoop]
  | cons p l ih =>
    intro t nt s ns
    cases hm : (filter p).1 with
    | false => simp [filterPresubmitsLoop, hm, ih]
    | true =>
      cases hr : p.shouldRun branch changes (filter p).2.1 (filter p).2.2 with
      | error e => simp [filterPresubmitsLoop, hm, hr]
      | ok b => cases b <;> simp [filterPresubmitsLoop, hm, hr, ih]

/-- C1: on success, `toTrigger` is exactly the sublist of matched jobs whose
run-condition returned `true`, `toSkip` exactly the sublist of matched jobs
whose run-condition returned `false` — both in input order, as `List.filter`
of the input — and no input job qualifies for both sides. -/
theorem filterPresubmits_partition (filter : Filter) (changes : ChangedFilesProvider)
    (branch : String) (presubmits : List Presubmit) (logger : Logger)
    (toTrigger toSkip : List Presubmit)
    (h : FilterPresubmits filter changes branch presubmits logger =
      (toTrigger, toSkip, none)) :
    toTrigger = presubmits.filter (triggersB filter changes branch) ∧
      toSkip = presubmits.filter (skipsB filter changes branch) ∧
      presubmits.filter (fun p =>
        triggersB filter changes branch p && skipsB filter changes branch p) = [] := by
  unfold FilterPresubmits at h
  cases hl : filterPresubmitsLoop filter changes branch [] [] [] [] presubmits with
  | error e =>
    rw [hl] at h
    have h2 : (([] : List Presubmit), ([] : List Presubmit), some e) =
        (toTrigger, toSkip, (none : Option String)) := h
    simp at h2
  | ok acc =>
    obtain ⟨T, NT, S, NS⟩ := acc
    rw [hl] at h
    have h2 : (T, S, (none : Option String)) = (toTrigger, toSkip, (none : Option String)) := h
    simp only [Prod.mk.injEq, and_true] at h2
    obtain ⟨rfl, rfl⟩ := h2
    obtain ⟨hT, hS⟩ :=
      filterPresubmitsLoop_ok_eq filter changes branch presubmits _ _ _ _ _ _ _ _ hl
    refine ⟨by simpa using hT, by simpa using hS, ?_⟩
    rw [List.filter_eq_nil_iff]
    intro p _
    cases hr : p.shouldRun branch changes (filter p).2.1 (filter p).2.2 with
    | error e => simp [triggersB, skipsB, hr]
    | ok b => cases b <;> simp [triggersB, skipsB, hr]

/-- Witness for C1: a concrete successful run of the partitioner, with the
matched always-run job triggered, the matched never-run job skipped, and the
explicit-trigger job excluded. -/
theorem filterPresubmits_partition_witness :
    FilterPresubmits TestAllFilter noChanges "main" [jobYes, jobOptOut, jobNo]
        nullLogger = ([jobYes], [jobNo], none) ∧
      ([jobYes] = [jobYes, jobOptOut, jobNo].filter (triggersB TestAllFilter noChanges "main") ∧
        [jobNo] = [jobYes, jobOptOut, jobNo].filter (skipsB TestAllFilter noChanges "main") ∧
        [jobYes, jobOptOut, jobNo].filter (fun p =>
          triggersB TestAllFilter noChanges "main" p &&
            skipsB TestAllFilter noChanges "main" p) = []) :=
  ⟨rfl, filterPresubmits_partition TestAllFilter noChanges "main"
    [jobYes, jobOptOut, jobNo] nullLogger [jobYes] [jobNo] rfl⟩

/-- C3: if every job before `p` was processed without error, the filter
matches `p`, and `p`'s run-condition reports an error `e`, then the whole
call returns `(nil, nil, e)` — whatever jobs follow `p` (they are never
evaluated) and whatever was accumulated before `p` (it is discarded). -/
theorem filterPresubmits_fail_fast (filter : Filter) (changes : ChangedFilesProvider)
    (branch : String) (pre : List Presubmit) (p : Presubmit) (rest : List Presubmit)
    (logger : Logger) (e : String)
    (acc : List Presubmit × List String × List Presubmit × List String)
    (hpre : filterPresubmitsLoop filter changes branch [] [] [] [] pre = .ok acc)
    (hm : (filter p).1 = true)
    (hr : p.shouldRun branch changes (filter p).2.1 (filter p).2.2 = .error e) :
    FilterPresubmits filter changes branch (pre ++ p :: rest) logger = ([], [], some e) := by
  obtain ⟨T, NT, S, NS⟩ := acc
  unfold FilterPresubmits
  rw [filterPresubmitsLoop_append, hpre]
  simp [filterPresubmitsLoop, hm, hr]

/-- Witness for C3: with `[jobYes, jobErr, jobNo]` the run-condition error of
`jobErr` makes the whole call return `(nil, nil, boom)` even though `jobYes`
had already been placed in the trigger accumulator. -/
theorem filterPresubmits_fail_fast_witness :
    (filterPresubmitsLoop TestAllFilter noChanges "main" [] [] [] [] [jobYes] =
        .ok ([jobYes], ["yes-job"], [], []) ∧
      (TestAllFilter jobErr).1 = true ∧
      jobErr.shouldRun "main" noChanges (TestAllFilter jobErr).2.1
        (TestAllFilter jobErr).2.2 = .error "boom") ∧
      FilterPresubmits TestAllFilter noChanges "main" ([jobYes] ++ jobErr :: [jobNo])
        nullLogger = ([], [], some "boom") :=
  ⟨⟨rfl, rfl, rfl⟩,
    filterPresubmits_fail_fast TestAllFilter noChanges "main" [jobYes] jobErr [jobNo]
      nullLogger "boom" ([jobYes], ["yes-job"], [], []) rfl rfl rfl⟩

/-- C6: a job the filter does not match contributes nothing: deleting it from
the input leaves the result unchanged (in particular its run-condition is
never consulted — the result does not depend on it), and it is a member of
neither output sequence. -/
theorem filterPresubmits_unmatched (filter : Filter) (changes : ChangedFilesProvider)
    (branch : String) (pre : List Presubmit) (p : Presubmit) (rest : List Presubmit)
    (logger : Logger) (toTrigger toSkip : List Presubmit) (err : Option String)
    (hm : (filter p).1 = false)
    (h : FilterPresubmits filter changes branch (pre ++ p :: rest) logger =
      (toTrigger, toSkip, err)) :
    FilterPresubmits filter changes branch (pre ++ rest) logger =
        (toTrigger, toSkip, err) ∧
      p ∉ toTrigger ∧ p ∉ toSkip := by
  have hloop : ∀ t nt s ns,
      filterPresubmitsLoop filter changes branch t nt s ns (pre ++ p :: rest) =
        filterPresubmitsLoop filter changes branch t nt s ns (pre ++ rest) := by
    intro t nt s ns
    rw [filterPresubmitsLoop_append, filterPresubmitsLoop_append]
    cases hpre : filterPresubmitsLoop filter changes branch t nt s ns pre with
    | error e => rfl
    | ok acc =>
      obtain ⟨T, NT, S, NS⟩ := acc
      simp only [filterPresubmitsLoop, hm, Bool.false_eq_true, if_false]
  constructor
  · rw [← h]
    unfold FilterPresubmits
    rw [hloop]
  · unfold FilterPresubmits at h
    cases hl : filterPresubmitsLoop filter changes branch [] [] [] [] (pre ++ p :: rest) with
    | error e =>
      rw [hl] at h
      have h2 : (([] : List Presubmit), ([] : List Presubmit), some e) =
          (toTrigger, toSkip, err) := h
      simp only [Prod.mk.injEq] at h2
      obtain ⟨rfl, rfl, -⟩ := h2
      simp
    | ok acc =>
      obtain ⟨T, NT, S, NS⟩ := acc
      rw [hl] at h
      have h2 : (T, S, (none : Option String)) = (toTrigger, toSkip, err) := h
      simp only [Prod.mk.injEq] at h2
      obtain ⟨rfl, rfl, -⟩ := h2
      obtain ⟨hT, hS⟩ :=
        filterPresubmitsLoop_ok_eq filter changes branch (pre ++ p :: rest) _ _ _ _ _ _ _ _ hl
      subst hT hS
      constructor <;>
        · intro hmem
          rw [List.nil_append, List.mem_filter] at hmem
          simp [triggersB, skipsB, hm] at hmem

/-- Witness for C6: `TestAllFilter` does not match `jobOptOut`, so its
presence between `jobYes` and `jobNo` changes nothing and it lands in
neither output. -/
theorem filterPresubmits_unmatched_witness :
    ((TestAllFilter jobOptOut).1 = false ∧
      FilterPresubmits TestAllFilter noChanges "main" ([jobYes] ++ jobOptOut :: [jobNo])
        nullLogger = ([jobYes], [jobNo], none)) ∧
      (FilterPresubmits TestAllFilter noChanges "main" ([jobYes] ++ [jobNo]) nullLogger =
          ([jobYes], [jobNo], none) ∧
        jobOptOut ∉ [jobYes] ∧ jobOptOut ∉ [jobNo]) :=
  ⟨⟨rfl, rfl⟩,
    filterPresubmits_unmatched TestAllFilter noChanges "main" [jobYes] jobOptOut [jobNo]
      nullLogger [jobYes] [jobNo] none rfl rfl⟩

/-- C8: the diagnostic sink never affects the returned results — any two
loggers yield identical `(toTrigger, toSkip, error)` triples. -/
theorem filterPresubmits_logger_irrelevant (filter : Filter)
    (changes : ChangedFilesProvider) (branch : String) (presubmits : List Presubmit)
    (logger1 logger2 : Logger) :
    FilterPresubmits filter changes branch presubmits logger1 =
      FilterPresubmits filter changes branch presubmits logger2 := by
  unfold FilterPresubmits
  cases filterPresubmitsLoop filter changes branch [] [] [] [] presubmits with
  | error e => rfl
  | ok acc => obtain ⟨T, NT, S, NS⟩ := acc; rfl

end Pjutil
